import Mathlib

/-!
Verification of the audio mastering core of the repository: loudness
measurement and normalization, biquad filters, the stereo width matrix,
WAV encoding, and the preview and offline processing chains.  All
definitions are shallow embeddings of the JavaScript renderer module;
IEEE float arithmetic is modelled by exact field arithmetic (rationals
where the code is executable, reals where the code uses transcendental
functions).
-/

/-- Normalized biquad filter coefficients (a0 already divided out), as
returned by the coefficient calculators in the source. -/
structure BiquadCoeffs (K : Type) where
  b0 : K
  b1 : K
  b2 : K
  a1 : K
  a2 : K

/-- Recursive worker for applyBiquadFilter: carries the two-sample input
history (x1, x2) and output history (y1, y2) across the sample loop, exactly
as the loop body of applyBiquadFilter does. -/
def applyBiquadGo {K : Type} [Field K] (c : BiquadCoeffs K) :
    List K → K → K → K → K → List K
  | [], _, _, _, _ => []
  | x0 :: rest, x1, x2, y1, y2 =>
      (c.b0 * x0 + c.b1 * x1 + c.b2 * x2 - c.a1 * y1 - c.a2 * y2) ::
        applyBiquadGo c rest x0 x1
          (c.b0 * x0 + c.b1 * x1 + c.b2 * x2 - c.a1 * y1 - c.a2 * y2) y1

/-- applyBiquadFilter from the source: direct-form difference equation
y0 = b0 x0 + b1 x1 + b2 x2 - a1 y1 - a2 y2 with history initialised to 0. -/
def applyBiquadFilter {K : Type} [Field K] (samples : List K) (c : BiquadCoeffs K) : List K :=
  applyBiquadGo c samples 0 0 0 0

/-- calcHighShelfCoeffs from the source (audio-EQ-cookbook high shelf),
over the reals. -/
noncomputable def calcHighShelfCoeffs (sampleRate frequency gainDB Q : ℝ) : BiquadCoeffs ℝ :=
  let A := (10 : ℝ) ^ (gainDB / 40)
  let w0 := 2 * Real.pi * frequency / sampleRate
  let cosW0 := Real.cos w0
  let sinW0 := Real.sin w0
  let alpha := sinW0 / (2 * Q)
  let b0 := A * ((A + 1) + (A - 1) * cosW0 + 2 * Real.sqrt A * alpha)
  let b1 := -2 * A * ((A - 1) + (A + 1) * cosW0)
  let b2 := A * ((A + 1) + (A - 1) * cosW0 - 2 * Real.sqrt A * alpha)
  let a0 := (A + 1) - (A - 1) * cosW0 + 2 * Real.sqrt A * alpha
  let a1 := 2 * ((A - 1) - (A + 1) * cosW0)
  let a2 := (A + 1) - (A - 1) * cosW0 - 2 * Real.sqrt A * alpha
  ⟨b0 / a0, b1 / a0, b2 / a0, a1 / a0, a2 / a0⟩

/-- calcHighPassCoeffs from the source (audio-EQ-cookbook high pass),
over the reals. -/
noncomputable def calcHighPassCoeffs (sampleRate frequency Q : ℝ) : BiquadCoeffs ℝ :=
  let w0 := 2 * Real.pi * frequency / sampleRate
  let cosW0 := Real.cos w0
  let sinW0 := Real.sin w0
  let alpha := sinW0 / (2 * Q)
  let b0 := (1 + cosW0) / 2
  let b1 := -(1 + cosW0)
  let b2 := (1 + cosW0) / 2
  let a0 := 1 + alpha
  let a1 := -2 * cosW0
  let a2 := 1 - alpha
  ⟨b0 / a0, b1 / a0, b2 / a0, a1 / a0, a2 / a0⟩

/-- A decoded audio buffer: a list of channels, each a list of samples, plus
the sample rate.  The per-buffer sample count (audioBuffer.length) is read
off the first channel. -/
structure SampleBuffer (K : Type) where
  channels : List (List K)
  sampleRate : ℕ

/-- The per-channel sample count of a buffer (audioBuffer.length). -/
def SampleBuffer.length {K : Type} (buf : SampleBuffer K) : ℕ :=
  (buf.channels.headD []).length

/-- Mean-square power of one measurement block starting at sample index
start: the sum of squared samples over all channels divided by
(blockSize times the channel count), lines 107-115 of measureLUFS. -/
def blockPower {K : Type} [Field K] (channels : List (List K)) (blockSize start : ℕ) : K :=
  (channels.map fun ch =>
      ((List.range blockSize).map fun i => ch.getD (start + i) 0 * ch.getD (start + i) 0).sum).sum
    / ((blockSize * channels.length : ℕ) : K)

/-- The block-collection loop of measureLUFS: starting from an offset, emit
one block power and advance by the hop size for as long as a full block
fits.  The fuel argument bounds the iteration count; the JavaScript loop
itself does not terminate when the hop size is zero (sample rates below 10),
so faithfulness holds for positive hop. -/
def collectBlocks {K : Type} [Field K] (channels : List (List K))
    (blockSize hop len : ℕ) : ℕ → ℕ → List K
  | 0, _ => []
  | fuel + 1, start =>
      if start + blockSize ≤ len then
        blockPower channels blockSize start ::
          collectBlocks channels blockSize hop len fuel (start + hop)
      else []

/-- All measurement blocks of the (already K-weighted) channel data: block
size floor(0.4 sampleRate) = 2 sampleRate / 5, hop floor(0.1 sampleRate) =
sampleRate / 10, exactly the loop of measureLUFS lines 102-116. -/
def lufsBlocks {K : Type} [Field K] (channels : List (List K)) (sampleRate : ℕ) : List K :=
  collectBlocks channels (2 * sampleRate / 5) (sampleRate / 10)
    (channels.headD []).length ((channels.headD []).length + 1) 0

/-- Blocks surviving the absolute gate of measureLUFS line 121
(power strictly above 10^-7). -/
def absGatedBlocks {K : Type} [LinearOrderedField K]
    (channels : List (List K)) (sampleRate : ℕ) : List K :=
  (lufsBlocks channels sampleRate).filter fun ms => decide ((1 : K) / 10 ^ 7 < ms)

/-- Arithmetic mean of a list of powers (reduce-and-divide, as in the
source). -/
def listMean {K : Type} [Field K] (l : List K) : K := l.sum / (l.length : K)

/-- Blocks surviving the relative gate of measureLUFS line 126: power
strictly above the mean of the absolutely gated blocks times 0.1. -/
def relGatedBlocks {K : Type} [LinearOrderedField K]
    (channels : List (List K)) (sampleRate : ℕ) : List K :=
  (absGatedBlocks channels sampleRate).filter fun ms =>
    decide (listMean (absGatedBlocks channels sampleRate) * (1 / 10) < ms)

/-- The gated mean power computed by measureLUFS lines 102-129; none models
the three -Infinity returns (no block, empty absolute gate, empty relative
gate). -/
def gatedLoudness {K : Type} [LinearOrderedField K]
    (channels : List (List K)) (sampleRate : ℕ) : Option K :=
  if (lufsBlocks channels sampleRate).length = 0 then none
  else if (absGatedBlocks channels sampleRate).length = 0 then none
  else if (relGatedBlocks channels sampleRate).length = 0 then none
  else some (listMean (relGatedBlocks channels sampleRate))

/-- The K-weighting cascade of measureLUFS lines 96-100: high shelf then
high pass applied to every channel. -/
def kWeightChannels {K : Type} [Field K] (shelf hp : BiquadCoeffs K)
    (buf : SampleBuffer K) : List (List K) :=
  buf.channels.map fun ch => applyBiquadFilter (applyBiquadFilter ch shelf) hp

/-- The LUFS formula of measureLUFS line 130 applied to the final gated
mean power. -/
noncomputable def lufsOfPower (m : ℝ) : ℝ := -0.691 + 10 * Real.logb 10 m

/-- measureLUFS with the two K-weighting coefficient records kept explicit;
none models the -Infinity result. -/
noncomputable def measureLUFSWith (shelf hp : BiquadCoeffs ℝ) (buf : SampleBuffer ℝ) : Option ℝ :=
  (gatedLoudness (kWeightChannels shelf hp buf) buf.sampleRate).map lufsOfPower

/-- The K-weighting high shelf used by measureLUFS: 1681.97 Hz, +4 dB,
Q 0.71 (line 93). -/
noncomputable def kShelfCoeffs (sampleRate : ℕ) : BiquadCoeffs ℝ :=
  calcHighShelfCoeffs sampleRate 1681.97 4.0 0.71

/-- The K-weighting high pass used by measureLUFS: 38.14 Hz, Q 0.5
(line 94). -/
noncomputable def kHighPassCoeffs (sampleRate : ℕ) : BiquadCoeffs ℝ :=
  calcHighPassCoeffs sampleRate 38.14 0.5

/-- measureLUFS from the source; none stands for the -Infinity result. -/
noncomputable def measureLUFS (buf : SampleBuffer ℝ) : Option ℝ :=
  measureLUFSWith (kShelfCoeffs buf.sampleRate) (kHighPassCoeffs buf.sampleRate) buf

/-- normalizeToLUFS from the source, with the K-weighting coefficients of
the embedded measureLUFS kept explicit.  The Bool component records whether
the could-not-measure warning branch ran (console.warn, line 141); the first
component is the buffer the function returns. -/
noncomputable def normalizeToLUFSWith (shelf hp : BiquadCoeffs ℝ) (buf : SampleBuffer ℝ)
    (targetLUFS : ℝ) : SampleBuffer ℝ × Bool :=
  match measureLUFSWith shelf hp buf with
  | none => (buf, true)
  | some currentLUFS =>
      (⟨buf.channels.map fun ch =>
          ch.map fun s => s * (10 : ℝ) ^ ((targetLUFS - currentLUFS) / 20),
        buf.sampleRate⟩, false)

/-- normalizeToLUFS from the source (lines 136-161). -/
noncomputable def normalizeToLUFS (buf : SampleBuffer ℝ) (targetLUFS : ℝ) :
    SampleBuffer ℝ × Bool :=
  normalizeToLUFSWith (kShelfCoeffs buf.sampleRate) (kHighPassCoeffs buf.sampleRate)
    buf targetLUFS

/-- Spec-side block count: the number of full blocks obtained when
partitioning len samples into blocks of blockSize with the given hop. -/
def numBlocksSpec (len blockSize hop : ℕ) : ℕ :=
  if blockSize ≤ len then (len - blockSize) / hop + 1 else 0

/-- Spec-side partition of the K-weighted signal, phrased as in the claim:
block k covers the blockSize samples starting at k times the hop. -/
def lufsBlocksSpec {K : Type} [Field K] (channels : List (List K)) (sampleRate : ℕ) : List K :=
  (List.range
      (numBlocksSpec (channels.headD []).length (2 * sampleRate / 5) (sampleRate / 10))).map
    fun k => blockPower channels (2 * sampleRate / 5) (k * (sampleRate / 10))

/-- Spec-side gating pipeline, phrased as in the claim: discard blocks with
power at most 10^-7, then discard blocks with power at most 0.1 times the
mean of the survivors, and return the mean power of what remains. -/
def gatedLoudnessSpec {K : Type} [LinearOrderedField K]
    (channels : List (List K)) (sampleRate : ℕ) : Option K :=
  let blocks := lufsBlocksSpec channels sampleRate
  if blocks.length = 0 then none
  else
    let g1 := blocks.filter fun p => decide (¬ p ≤ (1 : K) / 10 ^ 7)
    if g1.length = 0 then none
    else
      let g2 := g1.filter fun p => decide (¬ p ≤ (1 / 10) * listMean g1)
      if g2.length = 0 then none
      else some (listMean g2)

/-- Spec-side restatement of measureLUFS used by claim C3: partition the
K-weighted signal into blocks, gate absolutely then relatively, and return
-0.691 + 10 log10 of the final mean power, none when the buffer is shorter
than one block or a gate empties the block list. -/
noncomputable def measureLUFSSpec (buf : SampleBuffer ℝ) : Option ℝ :=
  (gatedLoudnessSpec
      (kWeightChannels (kShelfCoeffs buf.sampleRate) (kHighPassCoeffs buf.sampleRate) buf)
      buf.sampleRate).map lufsOfPower

/-- Clamp a sample to the interval from -1 to 1 (encodeWAV line 778). -/
def clampSample (x : ℚ) : ℚ := max (-1) (min 1 x)

/-- JavaScript Math.round: round half towards positive infinity. -/
def jsRound (x : ℚ) : ℤ := ⌊x + 1 / 2⌋

/-- Two bytes of an unsigned value, little-endian (DataView.setUint16). -/
def u16le (v : ℕ) : List ℕ := [v % 256, v / 256 % 256]

/-- Four bytes of an unsigned value, little-endian (DataView.setUint32). -/
def u32le (v : ℕ) : List ℕ := [v % 256, v / 256 % 256, v / 65536 % 256, v / 16777216 % 256]

/-- DataView.setInt16 little-endian: the value modulo 2^16 in two bytes
(two-complement wrapping). -/
def i16le (v : ℤ) : List ℕ := u16le (v.emod 65536).toNat

/-- The three 24-bit branch bytes of encodeWAV lines 785-787: JavaScript
bitwise operators work on the value as a 32-bit two-complement integer, so
the bytes are taken from the value modulo 2^32. -/
def i24leJS (v : ℤ) : List ℕ :=
  [(v.emod 4294967296).toNat % 256,
   (v.emod 4294967296).toNat / 256 % 256,
   (v.emod 4294967296).toNat / 65536 % 256]

/-- Per-sample byte output of the encodeWAV data loop (lines 781-789):
two bytes for 16-bit, three for 24-bit, nothing otherwise. -/
def sampleBytes (bitDepth : ℕ) (v : ℤ) : List ℕ :=
  if bitDepth = 16 then i16le v else if bitDepth = 24 then i24leJS v else []

/-- encodeWAV from the source (lines 738-794): 44-byte RIFF/WAVE header
followed by the quantized, channel-interleaved sample data.  The byte
stream is modelled as a list of byte values. -/
def encodeWAV (buf : SampleBuffer ℚ) (targetSampleRate bitDepth : ℕ) : List ℕ :=
  let numChannels := buf.channels.length
  let sampleRate := if targetSampleRate = 0 then buf.sampleRate else targetSampleRate
  let bytesPerSample := bitDepth / 8
  let numSamples := (buf.channels.headD []).length
  let dataSize := numSamples * numChannels * bytesPerSample
  let maxVal : ℤ := if bitDepth = 16 then 32767 else 8388607
  [82, 73, 70, 70] ++ u32le (36 + dataSize) ++ [87, 65, 86, 69] ++ [102, 109, 116, 32]
    ++ u32le 16 ++ u16le 1 ++ u16le numChannels ++ u32le sampleRate
    ++ u32le (sampleRate * numChannels * bytesPerSample)
    ++ u16le (numChannels * bytesPerSample) ++ u16le bitDepth
    ++ [100, 97, 116, 97] ++ u32le dataSize
    ++ ((List.range numSamples).map fun i =>
          ((List.range numChannels).map fun ch =>
              sampleBytes bitDepth
                (jsRound (clampSample ((buf.channels.getD ch []).getD i 0) * (maxVal : ℚ)))).flatten).flatten

/-- Spec-side little-endian byte string: numBytes bytes of the
two-complement representation of an integer. -/
def intBytesLE (numBytes : ℕ) (v : ℤ) : List ℕ :=
  (List.range numBytes).map fun k =>
    (v.emod ((2 : ℤ) ^ (8 * numBytes))).toNat / 2 ^ (8 * k) % 256

/-- Spec-side sample quantization for claim C4: clamp to the interval from
-1 to 1, scale by 2^(bitDepth-1) - 1, round to the nearest integer. -/
def quantizeSample (bitDepth : ℕ) (x : ℚ) : ℤ :=
  jsRound (clampSample x * ((2 ^ (bitDepth - 1) - 1 : ℤ) : ℚ))

/-- Spec-side 44-byte header for claim C4, written out byte by byte:
RIFF/WAVE container, format tag 1 (linear PCM) at offset 20, channel count,
sample rate, byte rate, block alignment = channels times bytesPerSample at
offset 32, bits per sample, data chunk size. -/
def wavHeaderBytes (numChannels sampleRate bitDepth dataSize : ℕ) : List ℕ :=
  [82, 73, 70, 70,
   (36 + dataSize) % 256, (36 + dataSize) / 256 % 256,
   (36 + dataSize) / 65536 % 256, (36 + dataSize) / 16777216 % 256,
   87, 65, 86, 69, 102, 109, 116, 32,
   16, 0, 0, 0,
   1, 0,
   numChannels % 256, numChannels / 256 % 256,
   sampleRate % 256, sampleRate / 256 % 256, sampleRate / 65536 % 256,
   sampleRate / 16777216 % 256,
   (sampleRate * numChannels * (bitDepth / 8)) % 256,
   (sampleRate * numChannels * (bitDepth / 8)) / 256 % 256,
   (sampleRate * numChannels * (bitDepth / 8)) / 65536 % 256,
   (sampleRate * numChannels * (bitDepth / 8)) / 16777216 % 256,
   (numChannels * (bitDepth / 8)) % 256, (numChannels * (bitDepth / 8)) / 256 % 256,
   bitDepth % 256, bitDepth / 256 % 256,
   100, 97, 116, 97,
   dataSize % 256, dataSize / 256 % 256, dataSize / 65536 % 256, dataSize / 16777216 % 256]

/-- Spec-side data segment for claim C4: for each sample frame, for each
channel, the little-endian bytes of the quantized sample. -/
def wavDataSpec (buf : SampleBuffer ℚ) (bitDepth : ℕ) : List ℕ :=
  ((List.range (buf.channels.headD []).length).map fun i =>
      ((List.range buf.channels.length).map fun ch =>
          intBytesLE (bitDepth / 8)
            (quantizeSample bitDepth ((buf.channels.getD ch []).getD i 0))).flatten).flatten

/-- Mid coefficient of the stereo width matrix (updateStereoWidth line
508). -/
def midCoef : ℚ := 1 / 2

/-- Side coefficient of the stereo width matrix (updateStereoWidth line
509). -/
def sideCoef (width : ℚ) : ℚ := 1 / 2 * width

/-- Left output of the mid/side width matrix: the stereo splitter feeds the
left sample through the lToMid gain (midCoef + sideCoef) and the right
sample through the rToMid gain (midCoef - sideCoef), and the channel merger
sums both into output channel 0 (updateStereoWidth lines 513-516 together
with the connections of connectAudioChain lines 540-552). -/
def stereoWidthL (width L R : ℚ) : ℚ :=
  L * (midCoef + sideCoef width) + R * (midCoef - sideCoef width)

/-- Right output of the mid/side width matrix: left through lToSide
(midCoef - sideCoef), right through rToSide (midCoef + sideCoef), summed
into output channel 1. -/
def stereoWidthR (width L R : ℚ) : ℚ :=
  L * (midCoef - sideCoef width) + R * (midCoef + sideCoef width)

/-- The processing stages appearing in the preview and offline signal
graphs.  stereoWidth stands for the whole splitter/matrix/merger subgraph. -/
inductive AudioStage
  | inputGain
  | highpass
  | eqLow
  | eqLowMid
  | eqMid
  | eqHighMid
  | eqHigh
  | lowshelf
  | midPeak
  | highshelf
  | compressor
  | stereoWidth
  | limiter
  | analyser
  | outputGain
deriving DecidableEq, BEq

/-- Position of a stage in a chain (index of its first occurrence). -/
def stagePos (l : List AudioStage) (s : AudioStage) : ℕ :=
  l.findIdx fun t => t == s

/-- The main signal path built by connectAudioChain (lines 519-568):
source, input gain, highpass, the five EQ bands, mud cut, harshness tame,
air boost, glue compressor, mid/side width matrix, limiter, analyser,
output gain, destination. -/
def previewMainPath : List AudioStage :=
  [AudioStage.inputGain, AudioStage.highpass, AudioStage.eqLow, AudioStage.eqLowMid,
   AudioStage.eqMid, AudioStage.eqHighMid, AudioStage.eqHigh, AudioStage.lowshelf,
   AudioStage.midPeak, AudioStage.highshelf, AudioStage.compressor,
   AudioStage.stereoWidth, AudioStage.limiter, AudioStage.analyser, AudioStage.outputGain]

/-- The signal path built by renderOffline (lines 918-941): identical to the
preview path up to the limiter, which feeds the offline destination
directly. -/
def offlineMainPath : List AudioStage :=
  [AudioStage.inputGain, AudioStage.highpass, AudioStage.eqLow, AudioStage.eqLowMid,
   AudioStage.eqMid, AudioStage.eqHighMid, AudioStage.eqHigh, AudioStage.lowshelf,
   AudioStage.midPeak, AudioStage.highshelf, AudioStage.compressor,
   AudioStage.stereoWidth, AudioStage.limiter]

/-- The node graph renderOffline builds as a function of the source buffer
channel count: the connection sequence of lines 918-941 never inspects the
channel count, so the path is the same for mono and stereo sources. -/
def offlineRenderPath (_sourceChannels : ℕ) : List AudioStage :=
  offlineMainPath

/-- The channel count of the OfflineAudioContext created by renderOffline
line 912: always 2, regardless of the source buffer channel count. -/
def offlineRenderContextChannelCount (_sourceChannels : ℕ) : ℕ := 2

/-- Filter types of the Web Audio BiquadFilterNode used by the chains. -/
inductive FilterKind
  | lowpass
  | highpass
  | lowshelf
  | highshelf
  | peaking
deriving DecidableEq

/-- Parameter state of one BiquadFilterNode: type, frequency (Hz), Q and
gain (dB).  Web Audio defaults are type lowpass, frequency 350, Q 1,
gain 0; parameters the code never assigns keep their defaults. -/
structure BiquadNodeState where
  kind : FilterKind
  frequency : ℚ
  q : ℚ
  gainDb : ℚ
deriving DecidableEq

/-- Parameter state of one DynamicsCompressorNode: threshold (dB), knee
(dB), ratio, attack (s), release (s). -/
structure DynNodeState where
  threshold : ℚ
  knee : ℚ
  ratioVal : ℚ
  attack : ℚ
  release : ℚ
deriving DecidableEq

/-- Web Audio DynamicsCompressorNode defaults: threshold -24 dB, knee
30 dB, ratio 12, attack 0.003 s, release 0.25 s. -/
def dynDefaults : DynNodeState := ⟨-24, 30, 12, 3 / 1000, 1 / 4⟩

/-- The settings snapshot assembled by the export click handler
(lines 1751-1770). -/
structure MasteringSettings where
  normalizeLoudness : Bool
  truePeakLimit : Bool
  truePeakCeiling : ℚ
  cleanLowEnd : Bool
  glueCompression : Bool
  stereoWidth : ℚ
  centerBass : Bool
  cutMud : Bool
  addAir : Bool
  tameHarsh : Bool
  sampleRate : ℕ
  bitDepth : ℕ
  inputGain : ℚ
  eqLow : ℚ
  eqLowMid : ℚ
  eqMid : ℚ
  eqHighMid : ℚ
  eqHigh : ℚ

/-- JavaScript number-valued v || d: d when v is falsy (0), v otherwise. -/
def jsOrQ (v d : ℚ) : ℚ := if v = 0 then d else v

/-- The parameters held by the audio-processing nodes of one chain: the
linear input gain, the nine biquad filters, the two dynamics processors and
the four mid/side matrix gains. -/
structure ChainNodeParams where
  inputGainLinear : ℝ
  highpass : BiquadNodeState
  eqLow : BiquadNodeState
  eqLowMid : BiquadNodeState
  eqMid : BiquadNodeState
  eqHighMid : BiquadNodeState
  eqHigh : BiquadNodeState
  lowshelf : BiquadNodeState
  midPeak : BiquadNodeState
  highshelf : BiquadNodeState
  compressor : DynNodeState
  limiter : DynNodeState
  lToMidGain : ℚ
  rToMidGain : ℚ
  lToSideGain : ℚ
  rToSideGain : ℚ

/-- createOfflineNodes from the source (lines 799-899): the node parameters
of the offline render chain as a function of the settings snapshot.
Fields the else-branches of lines 875-878 and 886-888 do not assign stay at
the Web Audio defaults of dynDefaults. -/
noncomputable def createOfflineNodes (s : MasteringSettings) : ChainNodeParams where
  inputGainLinear := (10 : ℝ) ^ (((jsOrQ s.inputGain 0 : ℚ) : ℝ) / 20)
  highpass := ⟨FilterKind.highpass, if s.cleanLowEnd then 30 else 1, 7 / 10, 0⟩
  eqLow := ⟨FilterKind.lowshelf, 80, 1, jsOrQ s.eqLow 0⟩
  eqLowMid := ⟨FilterKind.peaking, 250, 1, jsOrQ s.eqLowMid 0⟩
  eqMid := ⟨FilterKind.peaking, 1000, 1, jsOrQ s.eqMid 0⟩
  eqHighMid := ⟨FilterKind.peaking, 4000, 1, jsOrQ s.eqHighMid 0⟩
  eqHigh := ⟨FilterKind.highshelf, 12000, 1, jsOrQ s.eqHigh 0⟩
  lowshelf := ⟨FilterKind.peaking, 250, 3 / 2, if s.cutMud then -3 else 0⟩
  highshelf := ⟨FilterKind.highshelf, 12000, 1, if s.addAir then 5 / 2 else 0⟩
  midPeak := ⟨FilterKind.peaking, 5000, 2, if s.tameHarsh then -2 else 0⟩
  compressor :=
    if s.glueCompression then ⟨-18, 10, 3, 1 / 50, 1 / 4⟩
    else { dynDefaults with threshold := 0, ratioVal := 1 }
  limiter :=
    if s.truePeakLimit then ⟨jsOrQ s.truePeakCeiling (-1), 0, 20, 1 / 1000, 1 / 20⟩
    else { dynDefaults with threshold := 0, ratioVal := 1 }
  lToMidGain := midCoef + sideCoef (s.stereoWidth / 100)
  rToMidGain := midCoef - sideCoef (s.stereoWidth / 100)
  lToSideGain := midCoef - sideCoef (s.stereoWidth / 100)
  rToSideGain := midCoef + sideCoef (s.stereoWidth / 100)

/-- The steady-state node parameters of the preview chain for a settings
snapshot, with bypass off: createAudioChain (lines 351-459) followed by
updateAudioChain (461-493), updateStereoWidth (495-517), updateEQ (570-586)
and updateInputGain (588-592).  The disabled dynamics branches only change
threshold and ratio, so knee, attack and release keep the values assigned at
creation (lines 443-454). -/
noncomputable def previewChainNodes (s : MasteringSettings) : ChainNodeParams where
  inputGainLinear := (10 : ℝ) ^ ((s.inputGain : ℝ) / 20)
  highpass := ⟨FilterKind.highpass, if s.cleanLowEnd then 30 else 1, 7 / 10, 0⟩
  eqLow := ⟨FilterKind.lowshelf, 80, 1, s.eqLow⟩
  eqLowMid := ⟨FilterKind.peaking, 250, 1, s.eqLowMid⟩
  eqMid := ⟨FilterKind.peaking, 1000, 1, s.eqMid⟩
  eqHighMid := ⟨FilterKind.peaking, 4000, 1, s.eqHighMid⟩
  eqHigh := ⟨FilterKind.highshelf, 12000, 1, s.eqHigh⟩
  lowshelf := ⟨FilterKind.peaking, 250, 3 / 2, if s.cutMud then -3 else 0⟩
  highshelf := ⟨FilterKind.highshelf, 12000, 1, if s.addAir then 5 / 2 else 0⟩
  midPeak := ⟨FilterKind.peaking, 5000, 2, if s.tameHarsh then -2 else 0⟩
  compressor :=
    if s.glueCompression then ⟨-18, 10, 3, 1 / 50, 1 / 4⟩ else ⟨0, 10, 1, 1 / 50, 1 / 4⟩
  limiter :=
    if s.truePeakLimit then ⟨s.truePeakCeiling, 0, 20, 1 / 1000, 1 / 20⟩
    else ⟨0, 0, 1, 1 / 1000, 1 / 20⟩
  lToMidGain := midCoef + sideCoef (s.stereoWidth / 100)
  rToMidGain := midCoef - sideCoef (s.stereoWidth / 100)
  lToSideGain := midCoef - sideCoef (s.stereoWidth / 100)
  rToSideGain := midCoef + sideCoef (s.stereoWidth / 100)

/-- A settings snapshot with the true-peak limiter enabled and the ceiling
fader at its maximum 0 dB, glue compression off, all other controls at
their defaults. -/
def ceilingZeroSettings : MasteringSettings where
  normalizeLoudness := true
  truePeakLimit := true
  truePeakCeiling := 0
  cleanLowEnd := true
  glueCompression := false
  stereoWidth := 100
  centerBass := false
  cutMud := false
  addAir := false
  tameHarsh := false
  sampleRate := 44100
  bitDepth := 16
  inputGain := 0
  eqLow := 0
  eqLowMid := 0
  eqMid := 0
  eqHighMid := 0
  eqHigh := 0

/-- C7: for every stereo sample pair, the width matrix is the identity at
width 1; it collapses both outputs to the mid signal (L+R)/2 at width 0;
and at width 2 the side component of the output is doubled relative to the
width-1 output while the mid component is unchanged. -/
theorem stereoWidth_matrix_identity_mono_double (L R : ℚ) :
    (stereoWidthL 1 L R = L ∧ stereoWidthR 1 L R = R)
    ∧ (stereoWidthL 0 L R = (L + R) / 2 ∧ stereoWidthR 0 L R = (L + R) / 2)
    ∧ (stereoWidthL 2 L R - stereoWidthR 2 L R) / 2
        = 2 * ((stereoWidthL 1 L R - stereoWidthR 1 L R) / 2)
    ∧ (stereoWidthL 2 L R + stereoWidthR 2 L R) / 2
        = (stereoWidthL 1 L R + stereoWidthR 1 L R) / 2 := by
  refine ⟨⟨?_, ?_⟩, ⟨?_, ?_⟩, ?_, ?_⟩ <;>
    simp only [stereoWidthL, stereoWidthR, midCoef, sideCoef] <;> ring

/-- C2 counterexample: it is false that both dynamics processors precede
the mid/side width matrix; in both the preview chain and the offline chain
the limiter sits after the stereo width stage. -/
theorem dynamics_order_claim_false :
    ¬ ((stagePos previewMainPath AudioStage.compressor
          < stagePos previewMainPath AudioStage.stereoWidth
        ∧ stagePos previewMainPath AudioStage.limiter
            < stagePos previewMainPath AudioStage.stereoWidth)
      ∧ (stagePos offlineMainPath AudioStage.compressor
            < stagePos offlineMainPath AudioStage.stereoWidth
        ∧ stagePos offlineMainPath AudioStage.limiter
            < stagePos offlineMainPath AudioStage.stereoWidth)) := by
  decide

/-- C2 amended: in both preview and offline modes the order is input gain,
then the filter/EQ cascade, then the glue compressor, then the stereo width
matrix, then the limiter: the compressor precedes the width matrix and the
limiter follows it. -/
theorem chain_order_amended :
    (stagePos previewMainPath AudioStage.inputGain
        < stagePos previewMainPath AudioStage.highpass
      ∧ stagePos previewMainPath AudioStage.highpass
          < stagePos previewMainPath AudioStage.eqLow
      ∧ stagePos previewMainPath AudioStage.eqHigh
          < stagePos previewMainPath AudioStage.compressor
      ∧ stagePos previewMainPath AudioStage.compressor
          < stagePos previewMainPath AudioStage.stereoWidth
      ∧ stagePos previewMainPath AudioStage.stereoWidth
          < stagePos previewMainPath AudioStage.limiter)
    ∧ (stagePos offlineMainPath AudioStage.inputGain
          < stagePos offlineMainPath AudioStage.highpass
      ∧ stagePos offlineMainPath AudioStage.highpass
          < stagePos offlineMainPath AudioStage.eqLow
      ∧ stagePos offlineMainPath AudioStage.eqHigh
          < stagePos offlineMainPath AudioStage.compressor
      ∧ stagePos offlineMainPath AudioStage.compressor
          < stagePos offlineMainPath AudioStage.stereoWidth
      ∧ stagePos offlineMainPath AudioStage.stereoWidth
          < stagePos offlineMainPath AudioStage.limiter) := by
  decide

/-- C8 counterexample: for a single-channel source the claim fails: the
offline render graph does route the signal through the mid/side width
matrix, and the rendered context has 2 channels, not the mono layout of
the input. -/
theorem mono_bypass_claim_false :
    ¬ ((offlineRenderPath 1).contains AudioStage.stereoWidth = false
        ∧ offlineRenderContextChannelCount 1 = 1) := by
  decide

/-- C8 amended: the offline renderer treats mono and stereo sources
identically: the graph always contains the mid/side width stage and the
offline context always has 2 channels, so a mono input is up-mixed and
rendered as stereo rather than bypassing the width stage. -/
theorem mono_not_bypassed (sourceChannels : ℕ) :
    offlineRenderPath sourceChannels = offlineMainPath
    ∧ (offlineRenderPath sourceChannels).contains AudioStage.stereoWidth = true
    ∧ offlineRenderContextChannelCount sourceChannels = 2 :=
  ⟨rfl, rfl, rfl⟩

/-- C1: with the limiter enabled and the ceiling fader at its maximum of
0 dB, the offline render chain and the preview chain disagree: the preview
limiter threshold is 0 dB while createOfflineNodes turns the falsy ceiling
0 into the default -1 dB; moreover with glue compression disabled the
offline compressor keeps the Web Audio default knee 30 dB while the preview
compressor holds the configured knee 10 dB.  This contradicts the intended
(and documented) preview/offline equivalence. -/
theorem offline_preview_limiter_divergence :
    (previewChainNodes ceilingZeroSettings).limiter.threshold = 0
    ∧ (createOfflineNodes ceilingZeroSettings).limiter.threshold = -1
    ∧ (previewChainNodes ceilingZeroSettings).compressor.knee = 10
    ∧ (createOfflineNodes ceilingZeroSettings).compressor.knee = 30 := by
  refine ⟨?_, ?_, ?_, ?_⟩ <;>
    simp [previewChainNodes, createOfflineNodes, ceilingZeroSettings, jsOrQ, dynDefaults]

/-- A biquad whose normalized coefficients satisfy b0 = 1, b1 = a1 and
b2 = a2 maps every input stream to itself: the running history invariant
x1 = y1 and x2 = y2 makes each output sample collapse to the input
sample. -/
lemma applyBiquadGo_neutral {K : Type} [Field K] (c : BiquadCoeffs K)
    (h0 : c.b0 = 1) (h1 : c.b1 = c.a1) (h2 : c.b2 = c.a2) :
    ∀ (xs : List K) (x1 x2 : K), applyBiquadGo c xs x1 x2 x1 x2 = xs
  | [], _, _ => rfl
  | x0 :: rest, x1, x2 => by
    have hy : c.b0 * x0 + c.b1 * x1 + c.b2 * x2 - c.a1 * x1 - c.a2 * x2 = x0 := by
      rw [h0, h1, h2]; ring
    simp only [applyBiquadGo, hy]
    exact congrArg (x0 :: ·) (applyBiquadGo_neutral c h0 h1 h2 rest x0 x1)

/-- Neutrality transfers to applyBiquadFilter (zero initial history). -/
lemma applyBiquadFilter_neutral {K : Type} [Field K] (c : BiquadCoeffs K)
    (h0 : c.b0 = 1) (h1 : c.b1 = c.a1) (h2 : c.b2 = c.a2) (xs : List K) :
    applyBiquadFilter xs c = xs :=
  applyBiquadGo_neutral c h0 h1 h2 xs 0 0

/-- C9: at a gain of exactly 0 dB the high-shelf coefficient formulas
degenerate to a numerically neutral filter: for every positive corner
frequency below the Nyquist limit and every positive Q the normalized
coefficients satisfy b0 = 1, b1 = a1 and b2 = a2, and applying the biquad
difference equation with these coefficients returns any input stream
unchanged, with no separate skip path. -/
theorem highShelf_zero_gain_neutral (sampleRate frequency Q : ℝ)
    (hf : 0 < frequency) (hnyq : 2 * frequency < sampleRate) (hQ : 0 < Q) :
    (calcHighShelfCoeffs sampleRate frequency 0 Q).b0 = 1
    ∧ (calcHighShelfCoeffs sampleRate frequency 0 Q).b1
        = (calcHighShelfCoeffs sampleRate frequency 0 Q).a1
    ∧ (calcHighShelfCoeffs sampleRate frequency 0 Q).b2
        = (calcHighShelfCoeffs sampleRate frequency 0 Q).a2
    ∧ ∀ xs : List ℝ, applyBiquadFilter xs (calcHighShelfCoeffs sampleRate frequency 0 Q) = xs := by
  have hsr : (0 : ℝ) < sampleRate := lt_trans (by positivity) hnyq
  have hA : (10 : ℝ) ^ ((0 : ℝ) / 40) = 1 := by
    rw [zero_div, Real.rpow_zero]
  have hw0pos : 0 < 2 * Real.pi * frequency / sampleRate := by positivity
  have hw0lt : 2 * Real.pi * frequency / sampleRate < Real.pi := by
    rw [div_lt_iff₀ hsr]
    calc 2 * Real.pi * frequency = Real.pi * (2 * frequency) := by ring
    _ < Real.pi * sampleRate := by
        exact mul_lt_mul_of_pos_left hnyq Real.pi_pos
  have hsin : 0 < Real.sin (2 * Real.pi * frequency / sampleRate) :=
    Real.sin_pos_of_pos_of_lt_pi hw0pos hw0lt
  have halpha : 0 < Real.sin (2 * Real.pi * frequency / sampleRate) / (2 * Q) := by
    positivity
  set alpha := Real.sin (2 * Real.pi * frequency / sampleRate) / (2 * Q) with halphadef
  have ha0 : (0 : ℝ) < 2 + 2 * alpha := by linarith
  have hb0 : (calcHighShelfCoeffs sampleRate frequency 0 Q).b0 = 1 := by
    simp only [calcHighShelfCoeffs, hA, Real.sqrt_one]
    rw [show (1 : ℝ) * ((1 + 1) + (1 - 1) * Real.cos (2 * Real.pi * frequency / sampleRate)
        + 2 * 1 * alpha) = 2 + 2 * alpha by ring,
      show (1 : ℝ) + 1 - (1 - 1) * Real.cos (2 * Real.pi * frequency / sampleRate)
        + 2 * 1 * alpha = 2 + 2 * alpha by ring]
    exact div_self (ne_of_gt ha0)
  have hb1 : (calcHighShelfCoeffs sampleRate frequency 0 Q).b1
      = (calcHighShelfCoeffs sampleRate frequency 0 Q).a1 := by
    simp only [calcHighShelfCoeffs, hA, Real.sqrt_one]
    congr 1
    ring
  have hb2 : (calcHighShelfCoeffs sampleRate frequency 0 Q).b2
      = (calcHighShelfCoeffs sampleRate frequency 0 Q).a2 := by
    simp only [calcHighShelfCoeffs, hA, Real.sqrt_one]
    congr 1
    ring
  exact ⟨hb0, hb1, hb2, fun xs => applyBiquadFilter_neutral _ hb0 hb1 hb2 xs⟩

/-- C9 witness: the neutral-filter theorem instantiated at a 44.1 kHz
sample rate, a 12 kHz shelf corner and Q 1, applied to a concrete three
sample stream. -/
theorem highShelf_zero_gain_neutral_witness :
    (calcHighShelfCoeffs 44100 12000 0 1).b0 = 1
    ∧ applyBiquadFilter [1, 2, 3] (calcHighShelfCoeffs 44100 12000 0 1) = [1, 2, 3] :=
  ⟨(highShelf_zero_gain_neutral 44100 12000 1 (by norm_num) (by norm_num) (by norm_num)).1,
   (highShelf_zero_gain_neutral 44100 12000 1 (by norm_num) (by norm_num)
      (by norm_num)).2.2.2 [1, 2, 3]⟩

/-- Every nonempty list in a linear order has a greatest element. -/
lemma exists_max_mem {K : Type} [LinearOrder K] :
    ∀ l : List K, l ≠ [] → ∃ m ∈ l, ∀ x ∈ l, x ≤ m
  | [], h => absurd rfl h
  | [a], _ => ⟨a, List.mem_singleton_self a, by
      intro x hx
      rw [List.mem_singleton] at hx
      exact le_of_eq hx⟩
  | a :: b :: t, _ => by
    obtain ⟨m, hm, hmax⟩ := exists_max_mem (b :: t) (List.cons_ne_nil b t)
    rcases le_total a m with hle | hle
    · exact ⟨m, List.mem_cons_of_mem a hm, by
        intro x hx
        rcases List.mem_cons.mp hx with rfl | hx
        · exact hle
        · exact hmax x hx⟩
    · exact ⟨a, List.mem_cons_self a (b :: t), by
        intro x hx
        rcases List.mem_cons.mp hx with rfl | hx
        · exact le_refl x
        · exact le_trans (hmax x hx) hle⟩

/-- The sum of a list is at most its length times any upper bound of its
elements. -/
lemma list_sum_le_length_mul {K : Type} [LinearOrderedField K] :
    ∀ (l : List K) (m : K), (∀ x ∈ l, x ≤ m) → l.sum ≤ (l.length : K) * m
  | [], m, _ => by simp
  | a :: t, m, h => by
    have ht := list_sum_le_length_mul t m fun x hx => h x (List.mem_cons_of_mem a hx)
    have ha := h a (List.mem_cons_self a t)
    simp only [List.sum_cons, List.length_cons, Nat.cast_succ]
    calc a + t.sum ≤ m + (t.length : K) * m := add_le_add ha ht
    _ = ((t.length : K) + 1) * m := by ring

/-- The sum of a nonempty list of positive elements is positive. -/
lemma list_sum_pos_of_pos {K : Type} [LinearOrderedField K] :
    ∀ l : List K, (∀ x ∈ l, 0 < x) → l ≠ [] → 0 < l.sum
  | [], _, h => absurd rfl h
  | a :: t, h, _ => by
    have ha := h a (List.mem_cons_self a t)
    have ht : 0 ≤ t.sum := by
      rcases eq_or_ne t [] with rfl | hne
      · simp
      · exact le_of_lt (list_sum_pos_of_pos t (fun x hx => h x (List.mem_cons_of_mem a hx)) hne)
    simpa using add_pos_of_pos_of_nonneg ha ht

/-- C10: whenever at least one block of measureLUFS survives the absolute
gate, at least one block (any block of maximal power) also survives the
relative gate, and the final mean power handed to log10 is strictly
positive; the negative-infinity return placed after the relative gate is
therefore unreachable. -/
theorem relative_gate_never_empties {K : Type} [LinearOrderedField K]
    (channels : List (List K)) (sampleRate : ℕ)
    (h : absGatedBlocks channels sampleRate ≠ []) :
    relGatedBlocks channels sampleRate ≠ []
    ∧ 0 < listMean (relGatedBlocks channels sampleRate) := by
  have habs : ∀ x ∈ absGatedBlocks channels sampleRate, (1 : K) / 10 ^ 7 < x := by
    intro x hx
    exact of_decide_eq_true (List.mem_filter.mp hx).2
  have hxpos : ∀ x ∈ absGatedBlocks channels sampleRate, 0 < x := fun x hx =>
    lt_trans (by positivity) (habs x hx)
  obtain ⟨m, hm, hmax⟩ := exists_max_mem (absGatedBlocks channels sampleRate) h
  have hsum : 0 < (absGatedBlocks channels sampleRate).sum :=
    list_sum_pos_of_pos _ hxpos h
  have hlen : (0 : K) < ((absGatedBlocks channels sampleRate).length : K) := by
    have := List.length_pos.mpr h
    exact_mod_cast this
  have hmean_pos : 0 < listMean (absGatedBlocks channels sampleRate) :=
    div_pos hsum hlen
  have hmean_le : listMean (absGatedBlocks channels sampleRate) ≤ m := by
    rw [listMean, div_le_iff₀ hlen]
    calc (absGatedBlocks channels sampleRate).sum
        ≤ ((absGatedBlocks channels sampleRate).length : K) * m :=
          list_sum_le_length_mul _ m hmax
    _ = m * ((absGatedBlocks channels sampleRate).length : K) := mul_comm _ _
  have hkey : listMean (absGatedBlocks channels sampleRate) * (1 / 10) < m :=
    lt_of_lt_of_le (mul_lt_of_lt_one_right hmean_pos (by norm_num)) hmean_le
  have hm_rel : m ∈ relGatedBlocks channels sampleRate :=
    List.mem_filter.mpr ⟨hm, decide_eq_true hkey⟩
  have hne : relGatedBlocks channels sampleRate ≠ [] := List.ne_nil_of_mem hm_rel
  refine ⟨hne, ?_⟩
  have hrelpos : ∀ x ∈ relGatedBlocks channels sampleRate, 0 < x := fun x hx =>
    hxpos x (List.mem_of_mem_filter hx)
  have hrelsum : 0 < (relGatedBlocks channels sampleRate).sum :=
    list_sum_pos_of_pos _ hrelpos hne
  have hrellen : (0 : K) < ((relGatedBlocks channels sampleRate).length : K) := by
    have := List.length_pos.mpr hne
    exact_mod_cast this
  exact div_pos hrelsum hrellen

/-- C10 witness: over the rationals, a single four-sample channel at unit
amplitude and sample rate 10 has a nonempty absolute gate, a nonempty
relative gate and positive final mean power. -/
theorem relative_gate_never_empties_witness :
    absGatedBlocks ([[1, 1, 1, 1]] : List (List ℚ)) 10 ≠ []
    ∧ relGatedBlocks ([[1, 1, 1, 1]] : List (List ℚ)) 10 ≠ []
    ∧ 0 < listMean (relGatedBlocks ([[1, 1, 1, 1]] : List (List ℚ)) 10) := by
  have habs : absGatedBlocks ([[1, 1, 1, 1]] : List (List ℚ)) 10 ≠ [] := by
    norm_num [absGatedBlocks, lufsBlocks, collectBlocks, blockPower, List.range_succ, List.filter]
  exact ⟨habs, (relative_gate_never_empties [[1, 1, 1, 1]] 10 habs).1,
    (relative_gate_never_empties [[1, 1, 1, 1]] 10 habs).2⟩

/-- Reading position n of a mapped list with the image of the default as
default commutes with the map. -/
lemma getD_map_congr {α β : Type} (f : α → β) (d : α) (e : β) (l : List α) (n : ℕ)
    (hf : f d = e) : (l.map f).getD n e = f (l.getD n d) := by
  subst hf
  simp only [List.getD_eq_getElem?_getD, List.getElem?_map]
  cases l[n]? <;> simp

/-- C6: when the measured loudness is not finite (silence or measurement
failure), normalizeToLUFS returns the original buffer unchanged and runs
its warning branch rather than failing silently. -/
theorem normalize_skips_on_unmeasurable (shelf hp : BiquadCoeffs ℝ) (buf : SampleBuffer ℝ)
    (targetLUFS : ℝ) (h : measureLUFSWith shelf hp buf = none) :
    normalizeToLUFSWith shelf hp buf targetLUFS = (buf, true) := by
  simp [normalizeToLUFSWith, h]

/-- C6 witness: a zero-length buffer at sample rate 10 measures as negative
infinity, and normalizeToLUFS (with its actual K-weighting coefficients)
hands back the buffer unchanged with the warning flag set. -/
theorem normalize_skips_on_unmeasurable_witness :
    normalizeToLUFS ⟨[[]], 10⟩ (-14) = (⟨[[]], 10⟩, true) := by
  have h : measureLUFSWith (kShelfCoeffs 10) (kHighPassCoeffs 10) ⟨[[]], 10⟩ = none := by
    norm_num [measureLUFSWith, kWeightChannels, applyBiquadFilter, applyBiquadGo,
      gatedLoudness, lufsBlocks, collectBlocks]
  exact normalize_skips_on_unmeasurable (kShelfCoeffs 10) (kHighPassCoeffs 10)
    ⟨[[]], 10⟩ (-14) h

/-- C5: when the measured loudness L is finite, normalization produces a
buffer with the same channel count, per-channel lengths and sample rate in
which every sample equals the corresponding input sample multiplied by
10 raised to (target - L) / 20. -/
theorem normalize_applies_gain (shelf hp : BiquadCoeffs ℝ) (buf : SampleBuffer ℝ)
    (targetLUFS L : ℝ) (h : measureLUFSWith shelf hp buf = some L) :
    (normalizeToLUFSWith shelf hp buf targetLUFS).1.sampleRate = buf.sampleRate
    ∧ (normalizeToLUFSWith shelf hp buf targetLUFS).1.channels.length
        = buf.channels.length
    ∧ (∀ ch : ℕ,
        ((normalizeToLUFSWith shelf hp buf targetLUFS).1.channels.getD ch []).length
          = (buf.channels.getD ch []).length)
    ∧ ∀ ch i : ℕ,
        ((normalizeToLUFSWith shelf hp buf targetLUFS).1.channels.getD ch []).getD i 0
          = (buf.channels.getD ch []).getD i 0 * (10 : ℝ) ^ ((targetLUFS - L) / 20) := by
  refine ⟨?_, ?_, ?_, ?_⟩
  · simp [normalizeToLUFSWith, h]
  · simp [normalizeToLUFSWith, h]
  · intro ch
    simp only [normalizeToLUFSWith, h]
    rw [getD_map_congr _ [] [] _ ch rfl]
    simp
  · intro ch i
    simp only [normalizeToLUFSWith, h]
    rw [getD_map_congr _ [] [] _ ch rfl]
    rw [getD_map_congr _ 0 0 _ i (by simp)]

/-- C5 witness: with neutral K-weighting coefficients a constant unit
four-sample mono buffer at sample rate 10 measures a finite loudness (the
LUFS value of unit power), and the theorem applies: every output sample is
the input sample times the gain determined by target minus measured. -/
theorem normalize_applies_gain_witness :
    measureLUFSWith ⟨1, 0, 0, 0, 0⟩ ⟨1, 0, 0, 0, 0⟩ ⟨[[1, 1, 1, 1]], 10⟩
        = some (lufsOfPower 1)
    ∧ ∀ ch i : ℕ,
        ((normalizeToLUFSWith ⟨1, 0, 0, 0, 0⟩ ⟨1, 0, 0, 0, 0⟩
              ⟨[[1, 1, 1, 1]], 10⟩ (-14)).1.channels.getD ch []).getD i 0
          = (([[1, 1, 1, 1]] : List (List ℝ)).getD ch []).getD i 0
              * (10 : ℝ) ^ ((-14 - lufsOfPower 1) / 20) := by
  have h : measureLUFSWith (⟨1, 0, 0, 0, 0⟩ : BiquadCoeffs ℝ) ⟨1, 0, 0, 0, 0⟩
      ⟨[[1, 1, 1, 1]], 10⟩ = some (lufsOfPower 1) := by
    norm_num [measureLUFSWith, kWeightChannels, applyBiquadFilter, applyBiquadGo,
      gatedLoudness, relGatedBlocks, absGatedBlocks, lufsBlocks, collectBlocks, blockPower,
      listMean, List.range_succ, List.filter]
  exact ⟨h, (normalize_applies_gain ⟨1, 0, 0, 0, 0⟩ ⟨1, 0, 0, 0, 0⟩
    ⟨[[1, 1, 1, 1]], 10⟩ (-14) (lufsOfPower 1) h).2.2.2⟩

/-- Number of blocks the measureLUFS loop still produces when resumed at a
given start offset. -/
def numBlocksFrom (len blockSize hop start : ℕ) : ℕ :=
  if start + blockSize ≤ len then (len - (start + blockSize)) / hop + 1 else 0

/-- One loop step consumes exactly one block: resuming one hop later
produces one block fewer. -/
lemma numBlocksFrom_step (len blockSize hop start : ℕ) (hhop : 0 < hop)
    (h : start + blockSize ≤ len) :
    numBlocksFrom len blockSize hop start
      = numBlocksFrom len blockSize hop (start + hop) + 1 := by
  unfold numBlocksFrom
  rw [if_pos h]
  by_cases h2 : start + hop + blockSize ≤ len
  · rw [if_pos h2]
    have hsplit : len - (start + blockSize) = (len - (start + hop + blockSize)) + hop := by
      omega
    rw [hsplit, Nat.add_div_right _ hhop]
  · rw [if_neg h2]
    have : len - (start + blockSize) < hop := by omega
    rw [Nat.div_eq_of_lt this]

/-- The measureLUFS block loop, given sufficient fuel and a positive hop,
produces exactly the blocks starting at start, start + hop, start + 2 hop,
and so on. -/
lemma collectBlocks_eq_range {K : Type} [Field K] (channels : List (List K))
    (blockSize hop len : ℕ) (hhop : 0 < hop) :
    ∀ fuel start : ℕ, numBlocksFrom len blockSize hop start ≤ fuel →
      collectBlocks channels blockSize hop len fuel start
        = (List.range (numBlocksFrom len blockSize hop start)).map
            fun k => blockPower channels blockSize (start + k * hop)
  | 0, start, hbound => by
    have h0 : numBlocksFrom len blockSize hop start = 0 := Nat.le_zero.mp hbound
    simp [collectBlocks, h0]
  | fuel + 1, start, hbound => by
    by_cases h : start + blockSize ≤ len
    · have hstep := numBlocksFrom_step len blockSize hop start hhop h
      have hbound2 : numBlocksFrom len blockSize hop (start + hop) ≤ fuel := by omega
      have hrec := collectBlocks_eq_range channels blockSize hop len hhop fuel
        (start + hop) hbound2
      rw [collectBlocks, if_pos h, hrec, hstep, List.range_succ_eq_map]
      simp only [List.map_cons, List.map_map, Nat.zero_mul, Nat.add_zero]
      refine congrArg (blockPower channels blockSize start :: ·) ?_
      refine List.map_congr_left fun k _ => ?_
      have : start + hop + k * hop = start + (k + 1) * hop := by ring
      simp [Function.comp, this]
    · have h0 : numBlocksFrom len blockSize hop start = 0 := by
        unfold numBlocksFrom
        rw [if_neg h]
      rw [collectBlocks, if_neg h, h0]
      simp

/-- The block loop of measureLUFS computes exactly the spec-side partition:
blocks of floor(0.4 sr) samples starting at the multiples of the hop
floor(0.1 sr), for every sample rate of at least 10 (below that the
JavaScript loop itself diverges). -/
lemma lufsBlocks_eq_spec {K : Type} [Field K] (channels : List (List K)) (sampleRate : ℕ)
    (h : 10 ≤ sampleRate) :
    lufsBlocks channels sampleRate = lufsBlocksSpec channels sampleRate := by
  have hhop : 0 < sampleRate / 10 := Nat.div_pos h (by norm_num)
  have hbound : numBlocksFrom (channels.headD []).length (2 * sampleRate / 5)
      (sampleRate / 10) 0 ≤ (channels.headD []).length + 1 := by
    unfold numBlocksFrom
    split
    · have h1 : ((channels.headD []).length - (0 + 2 * sampleRate / 5)) / (sampleRate / 10)
          ≤ (channels.headD []).length - (0 + 2 * sampleRate / 5) := Nat.div_le_self _ _
      have h2 : (channels.headD []).length - (0 + 2 * sampleRate / 5)
          ≤ (channels.headD []).length := Nat.sub_le _ _
      omega
    · omega
  rw [lufsBlocks, collectBlocks_eq_range channels _ _ _ hhop _ 0 hbound]
  unfold lufsBlocksSpec numBlocksSpec numBlocksFrom
  simp

/-- The full gating pipeline of measureLUFS coincides with the spec-side
pipeline phrased as in claim C3. -/
lemma gatedLoudness_eq_spec {K : Type} [LinearOrderedField K]
    (channels : List (List K)) (sampleRate : ℕ) (h : 10 ≤ sampleRate) :
    gatedLoudness channels sampleRate = gatedLoudnessSpec channels sampleRate := by
  have hblocks := lufsBlocks_eq_spec channels sampleRate h
  have habs : absGatedBlocks channels sampleRate
      = (lufsBlocksSpec channels sampleRate).filter
          fun p => decide (¬ p ≤ (1 : K) / 10 ^ 7) := by
    rw [absGatedBlocks, hblocks]
    exact List.filter_congr fun x _ => decide_eq_decide.mpr not_le.symm
  have hrel : relGatedBlocks channels sampleRate
      = ((lufsBlocksSpec channels sampleRate).filter
            fun p => decide (¬ p ≤ (1 : K) / 10 ^ 7)).filter
          fun p => decide (¬ p ≤ (1 / 10)
            * listMean ((lufsBlocksSpec channels sampleRate).filter
                fun q => decide (¬ q ≤ (1 : K) / 10 ^ 7))) := by
    rw [relGatedBlocks, habs]
    refine List.filter_congr fun x _ => decide_eq_decide.mpr ?_
    rw [mul_comm]
    exact not_le.symm
  rw [gatedLoudness, gatedLoudnessSpec, hblocks, habs, hrel]

/-- C3: measureLUFS partitions the K-weighted signal into blocks of
floor(0.4 sr) samples with hop floor(0.1 sr), computes per-block power as
the channel-summed sum of squares over (blockSize times channelCount),
discards blocks with power at most 10^-7, then blocks with power at most
0.1 times the mean of the survivors, and returns -0.691 + 10 log10 of the
mean of the rest; none (negative infinity) when the buffer is shorter than
one block or a gate leaves nothing.  Stated for sample rates of at least
10; below that the JavaScript block loop does not terminate. -/
theorem measureLUFS_eq_spec (buf : SampleBuffer ℝ) (h : 10 ≤ buf.sampleRate) :
    measureLUFS buf = measureLUFSSpec buf := by
  unfold measureLUFS measureLUFSWith measureLUFSSpec
  rw [gatedLoudness_eq_spec _ _ h]

/-- C3 witness: the equivalence applied to a concrete empty one-channel
buffer at sample rate 10. -/
theorem measureLUFS_eq_spec_witness :
    measureLUFS ⟨[[]], 10⟩ = measureLUFSSpec ⟨[[]], 10⟩ :=
  measureLUFS_eq_spec ⟨[[]], 10⟩ (by norm_num)

/-- The two setInt16 bytes are the two little-endian bytes of the value
modulo 2^16. -/
lemma i16le_eq_intBytesLE (v : ℤ) : i16le v = intBytesLE 2 v := by
  have hr : List.range 2 = [0, 1] := rfl
  simp [i16le, intBytesLE, u16le, hr]

/-- For a nonnegative integer, taking toNat and then a natural remainder
agrees with the integer remainder followed by toNat. -/
lemma toNat_mod_eq (a b : ℤ) (ha : 0 ≤ a) (hb : 0 < b) :
    a.toNat % b.toNat = (a.emod b).toNat := by
  have h1 : ((a.toNat % b.toNat : ℕ) : ℤ) = a.emod b := by
    push_cast [Int.toNat_of_nonneg ha, Int.toNat_of_nonneg hb.le]
    rfl
  have h2 : 0 ≤ a.emod b := Int.emod_nonneg a hb.ne.symm
  omega

/-- The three masked-and-shifted bytes of the 24-bit branch agree with the
three little-endian bytes of the value modulo 2^24: bytes 0 to 2 of the
32-bit two-complement representation only depend on the value modulo
2^24. -/
lemma i24leJS_eq_intBytesLE (v : ℤ) : i24leJS v = intBytesLE 3 v := by
  have ha : 0 ≤ v.emod 4294967296 := Int.emod_nonneg v (by norm_num)
  have hmod : (v.emod 4294967296).emod 16777216 = v.emod 16777216 :=
    Int.emod_emod_of_dvd v (by norm_num)
  have htn : (v.emod 16777216).toNat = (v.emod 4294967296).toNat % 16777216 := by
    have h := toNat_mod_eq (v.emod 4294967296) 16777216 ha (by norm_num)
    norm_num at h
    rw [hmod] at h
    exact h.symm
  have hr : List.range 3 = [0, 1, 2] := rfl
  simp only [i24leJS, intBytesLE, hr, List.map_cons, List.map_nil]
  rw [show ((2 : ℤ) ^ (8 * 3)) = 16777216 from by norm_num, htn]
  rw [show (2 : ℕ) ^ (8 * 0) = 1 from rfl, show (2 : ℕ) ^ (8 * 1) = 256 from rfl,
    show (2 : ℕ) ^ (8 * 2) = 65536 from rfl, Nat.div_one]
  simp only [List.cons.injEq, and_true]
  refine ⟨?_, ?_, ?_⟩ <;> omega

/-- The flattening of a list of lists of one common length c has length
(number of lists) times c. -/
lemma flatten_length_const {α : Type} :
    ∀ (L : List (List α)) (c : ℕ), (∀ l ∈ L, l.length = c) → L.flatten.length = L.length * c
  | [], _, _ => by simp
  | a :: t, c, h => by
    have ht := flatten_length_const t c fun l hl => h l (List.mem_cons_of_mem a hl)
    simp only [List.flatten_cons, List.length_append, List.length_cons,
      h a (List.mem_cons_self a t), ht]
    ring

/-- Each spec-side byte chunk has bitDepth / 8 bytes. -/
lemma intBytesLE_length (numBytes : ℕ) (v : ℤ) : (intBytesLE numBytes v).length = numBytes := by
  simp [intBytesLE]

/-- The spec-side data segment has numSamples times numChannels times
bytesPerSample bytes. -/
lemma wavDataSpec_length (buf : SampleBuffer ℚ) (bitDepth : ℕ) :
    (wavDataSpec buf bitDepth).length
      = (buf.channels.headD []).length * buf.channels.length * (bitDepth / 8) := by
  unfold wavDataSpec
  rw [flatten_length_const _ (buf.channels.length * (bitDepth / 8))]
  · simp [mul_assoc]
  · intro l hl
    rw [List.mem_map] at hl
    obtain ⟨i, _, rfl⟩ := hl
    rw [flatten_length_const _ (bitDepth / 8)]
    · simp
    · intro l2 hl2
      rw [List.mem_map] at hl2
      obtain ⟨ch, _, rfl⟩ := hl2
      exact intBytesLE_length _ _

/-- C4: for every buffer and bit depth in {16, 24}, encodeWAV produces
exactly a 44-byte RIFF/WAVE header followed by the interleaved data: the
format tag field (offset 20) is 1, the block-alignment field (offset 32)
holds channels times bitDepth / 8, and each data chunk is the sample
clamped to the interval from -1 to 1, scaled by 2^(bitDepth - 1) - 1,
rounded to the nearest integer and stored as bitDepth / 8 little-endian
two-complement bytes in channel-interleaved order. -/
theorem encodeWAV_layout (buf : SampleBuffer ℚ) (targetSampleRate bitDepth : ℕ)
    (hbd : bitDepth = 16 ∨ bitDepth = 24) :
    encodeWAV buf targetSampleRate bitDepth
      = wavHeaderBytes buf.channels.length
          (if targetSampleRate = 0 then buf.sampleRate else targetSampleRate) bitDepth
          ((buf.channels.headD []).length * buf.channels.length * (bitDepth / 8))
        ++ wavDataSpec buf bitDepth
    ∧ (wavHeaderBytes buf.channels.length
          (if targetSampleRate = 0 then buf.sampleRate else targetSampleRate) bitDepth
          ((buf.channels.headD []).length * buf.channels.length * (bitDepth / 8))).length = 44
    ∧ (wavHeaderBytes buf.channels.length
          (if targetSampleRate = 0 then buf.sampleRate else targetSampleRate) bitDepth
          ((buf.channels.headD []).length * buf.channels.length
            * (bitDepth / 8))).getD 20 0 = 1
    ∧ (wavHeaderBytes buf.channels.length
          (if targetSampleRate = 0 then buf.sampleRate else targetSampleRate) bitDepth
          ((buf.channels.headD []).length * buf.channels.length
            * (bitDepth / 8))).getD 21 0 = 0
    ∧ (wavHeaderBytes buf.channels.length
          (if targetSampleRate = 0 then buf.sampleRate else targetSampleRate) bitDepth
          ((buf.channels.headD []).length * buf.channels.length
            * (bitDepth / 8))).getD 32 0 = buf.channels.length * (bitDepth / 8) % 256
    ∧ (wavHeaderBytes buf.channels.length
          (if targetSampleRate = 0 then buf.sampleRate else targetSampleRate) bitDepth
          ((buf.channels.headD []).length * buf.channels.length
            * (bitDepth / 8))).getD 33 0 = buf.channels.length * (bitDepth / 8) / 256 % 256
    ∧ (encodeWAV buf targetSampleRate bitDepth).length
        = 44 + (buf.channels.headD []).length * buf.channels.length * (bitDepth / 8) := by
  have hmain : encodeWAV buf targetSampleRate bitDepth
      = wavHeaderBytes buf.channels.length
          (if targetSampleRate = 0 then buf.sampleRate else targetSampleRate) bitDepth
          ((buf.channels.headD []).length * buf.channels.length * (bitDepth / 8))
        ++ wavDataSpec buf bitDepth := by
    rcases hbd with rfl | rfl
    · simp only [encodeWAV, wavHeaderBytes, wavDataSpec, sampleBytes, quantizeSample,
        u16le, u32le, i16le_eq_intBytesLE]
      norm_num
    · simp only [encodeWAV, wavHeaderBytes, wavDataSpec, sampleBytes, quantizeSample,
        u16le, u32le, i24leJS_eq_intBytesLE]
      norm_num
  refine ⟨hmain, rfl, rfl, rfl, rfl, rfl, ?_⟩
  rw [hmain, List.length_append, wavDataSpec_length]
  rfl

/-- C4 witness: the layout theorem applied to a concrete two-channel
two-frame buffer (with one sample outside the clamp range) encoded at
16 bits: 44 header bytes plus 2 frames times 2 channels times 2 bytes. -/
theorem encodeWAV_layout_witness :
    (encodeWAV ⟨[[1 / 2, 2], [-(3 / 4), -2]], 44100⟩ 48000 16).length
      = 44 + (([[1 / 2, 2], [-(3 / 4), -2]] : List (List ℚ)).headD []).length
          * ([[1 / 2, 2], [-(3 / 4), -2]] : List (List ℚ)).length * (16 / 8) :=
  (encodeWAV_layout ⟨[[1 / 2, 2], [-(3 / 4), -2]], 44100⟩ 48000 16 (Or.inl rfl)).2.2.2.2.2.2
